import Mathlib

/-!
Verification development for the tg-voice-translator billing core
(`src/app.py`): a shallow embedding of the user/payment data model, the
usage-metering rules of the Telegram voice handler, invoice creation, and
the CryptoCloud postback reconciliation handler, together with theorems
about the testable properties of the design document.

Modelling conventions: Python's unbounded integers become `Int`; nullable
database columns become `Option`; SQLAlchemy row mutation becomes
replacement of the first matching element of a list; network and logging
effects are dropped (the handlers' return values keep the externally
observable outcome); case folding is ASCII, matching the status tokens that
actually occur.
-/

/-- constant `TRIAL_LIMIT` with its default value 5 (app.py line 44). -/
def TRIAL_LIMIT : Int := 5

/-- constant `TRIAL_MAX_SECONDS_PER_MESSAGE` (app.py line 49). -/
def TRIAL_MAX_SECONDS_PER_MESSAGE : Int := 60

/-- the `PACKAGES` SKU table: code, usd, minutes (app.py lines 51-56). -/
def PACKAGES : List (String × Int × Int) :=
  [("P30", 3, 30), ("P60", 8, 60), ("P180", 20, 180), ("P600", 50, 600)]

/-- lookup in `PACKAGES` (models Python dict `.get`). -/
def packages_get (code : String) : Option (Int × Int) :=
  (PACKAGES.find? (fun e => e.1 == code)).map (fun e => e.2)

/-- the `LANGS` table of (label, code) pairs (app.py lines 59-68). -/
def LANGS : List (String × String) :=
  [("English", "en"), ("Русский", "ru"), ("Deutsch", "de"), ("Español", "es"),
   ("ไทย", "th"), ("Tiếng Việt", "vi"), ("Français", "fr"), ("Türkçe", "tr")]

/-- the set of allowed language codes, `{c for _, c in LANGS}` (app.py line 556). -/
def langCodes : List String := LANGS.map (fun e => e.2)

/-- row of the `users` table (app.py class `User`, lines 88-102; timestamps
omitted). Columns that `get_or_create_user` defends against being NULL are
`Option`-typed. -/
structure User where
  telegram_id : Int
  target_lang : Option String
  trial_left : Option Int
  trial_messages : Option Int
  is_subscribed : Bool
  balance_seconds : Option Int
deriving Repr, DecidableEq

/-- row of the `payments` table (app.py class `Payment`, lines 105-120;
id and timestamps omitted). -/
structure Payment where
  telegram_id : Int
  order_id : String
  invoice_id : String
  package_code : String
  amount_usd : Int
  status : String
deriving Repr, DecidableEq

/-- the relational store: both tables. -/
structure DB where
  users : List User
  payments : List Payment
deriving Repr, DecidableEq

/-- replace the first element satisfying `p` by its image under `f`
(models SQLAlchemy mutating the row object returned by `.first()`). -/
def updateFirst (p : α → Bool) (f : α → α) : List α → List α
  | [] => []
  | x :: xs => if p x then f x :: xs else x :: updateFirst p f xs

/-- first element satisfying `p` together with its index. -/
def findIdxElem? (p : α → Bool) : List α → Option (Nat × α)
  | [] => none
  | x :: xs =>
    if p x then some (0, x)
    else (findIdxElem? p xs).map (fun e => (e.1 + 1, e.2))

/-- ASCII `str.lower`, as a kernel-computable character map. -/
def pyLower (s : String) : String := ⟨s.data.map Char.toLower⟩

/-- `str.strip`: drop leading and trailing whitespace. -/
def pyStrip (s : String) : String :=
  ⟨((s.data.dropWhile Char.isWhitespace).reverse.dropWhile Char.isWhitespace).reverse⟩

/-- left-to-right non-overlapping replacement on character lists, with fuel
bounding the scan (the fuel is instantiated with the list length). -/
def replaceAux (pat rep : List Char) : Nat → List Char → List Char
  | _, [] => []
  | 0, s => s
  | fuel+1, c :: cs =>
    if pat.isPrefixOf (c :: cs) && !pat.isEmpty then
      rep ++ replaceAux pat rep fuel ((c :: cs).drop pat.length)
    else
      c :: replaceAux pat rep fuel cs

/-- Python `str.replace` (all occurrences). -/
def pyReplace (s pat rep : String) : String :=
  ⟨replaceAux pat.data rep.data s.data.length s.data⟩

/-- the NULL-repair block of `get_or_create_user` on an existing row
(app.py lines 223-230). -/
def repair_user (u : User) : User :=
  let u1 := if u.target_lang = none then { u with target_lang := some "fr" } else u
  let u2 := if u1.trial_left = none then { u1 with trial_left := some TRIAL_LIMIT } else u1
  let u3 := if u2.trial_messages = none then { u2 with trial_messages := u2.trial_left } else u2
  if u3.balance_seconds = none then { u3 with balance_seconds := some 0 } else u3

/-- a freshly created user row (app.py lines 234-241). -/
def newUser (tid : Int) : User :=
  { telegram_id := tid, target_lang := some "fr", trial_left := some TRIAL_LIMIT,
    trial_messages := some TRIAL_LIMIT, is_subscribed := false, balance_seconds := some 0 }

/-- embeds `get_or_create_user` (app.py lines 220-244): find the first row
with this telegram id, repairing NULL columns, or create a fresh row. -/
def get_or_create_user (db : DB) (tid : Int) : User × DB :=
  match db.users.find? (fun u => u.telegram_id == tid) with
  | some u =>
    let u' := repair_user u
    (u', { db with users := updateFirst (fun v => v.telegram_id == tid) (fun _ => u') db.users })
  | none =>
    let u := newUser tid
    (u, { db with users := db.users ++ [u] })

/-- externally observable outcome of the voice branch of `telegram_webhook`
(which denial or debit happened). -/
inductive VoiceOutcome where
  | insufficientBalance
  | trialOver
  | trialCap
  | okBalance
  | okTrial
deriving Repr, DecidableEq

/-- embeds the balance/trial metering of the voice branch of
`telegram_webhook` (app.py lines 476-515): a positive balance is debited by
`max 1 duration` when it covers it; otherwise the trial counter serves
requests up to the per-message cap. -/
def handle_voice (db : DB) (chat_id duration : Int) : DB × VoiceOutcome :=
  let r := get_or_create_user db chat_id
  let user := r.1
  let db1 := r.2
  let has_paid_balance := user.balance_seconds.getD 0 > 0
  if has_paid_balance then
    let deduct := max 1 duration
    if user.balance_seconds.getD 0 < deduct then
      (db1, .insufficientBalance)
    else
      let u' := { user with balance_seconds := some (user.balance_seconds.getD 0 - deduct) }
      ({ db1 with users := updateFirst (fun v => v.telegram_id == chat_id) (fun _ => u') db1.users },
       .okBalance)
  else
    if user.trial_left.getD 0 ≤ 0 then
      (db1, .trialOver)
    else if duration > TRIAL_MAX_SECONDS_PER_MESSAGE then
      (db1, .trialCap)
    else
      let t := user.trial_left.getD 0 - 1
      let u' := { user with trial_left := some t, trial_messages := some t }
      ({ db1 with users := updateFirst (fun v => v.telegram_id == chat_id) (fun _ => u') db1.users },
       .okTrial)

/-- embeds `credit_user_minutes` (app.py lines 374-382): unknown package
raises; otherwise the owning account's balance grows by `minutes * 60`. -/
def credit_user_minutes (db : DB) (tid : Int) (package_code : String) :
    Except String (Int × DB) :=
  match packages_get package_code with
  | none => .error "Unknown package_code"
  | some pk =>
    let add_seconds := pk.2 * 60
    let r := get_or_create_user db tid
    let user := r.1
    let db1 := r.2
    let u' := { user with balance_seconds := some (user.balance_seconds.getD 0 + add_seconds) }
    .ok (add_seconds,
      { db1 with users := updateFirst (fun v => v.telegram_id == tid) (fun _ => u') db1.users })

/-- embeds the language-selection callback branch of `telegram_webhook`
(app.py lines 554-562): only codes in the allowed set are written. -/
def handle_lang (db : DB) (chat_id : Int) (cb_data : String) : DB :=
  let r := get_or_create_user db chat_id
  let user := r.1
  let db1 := r.2
  let code := pyStrip (pyReplace cb_data "lang_" "")
  if langCodes.contains code then
    let users' := updateFirst (fun v => v.telegram_id == chat_id) (fun _ => { user with target_lang := some code }) db1.users
    { db1 with users := users' }
  else db1

/-- one attempted CryptoCloud invoice-creation HTTP call: an exception, or
a response with a status code and the probed fields of its JSON body. -/
inductive CcAttempt where
  | exn : String → CcAttempt
  | resp : Nat → Option String → Option String → Option String →
      Option String → Option String → Option String → Option String →
      Option String → CcAttempt
deriving Repr, DecidableEq

/-- Python truthiness for an optional string: `None` and `""` are falsy. -/
def pyTruthy : Option String → Bool
  | none => false
  | some s => s ≠ ""

/-- Python `a or b` on optional strings. -/
def pyOrS (a b : Option String) : Option String :=
  if pyTruthy a then a else b

/-- the `uuid` extraction chain of `create_invoice` (app.py lines 352-356),
over the probed response fields result.uuid / uuid / invoice.uuid. -/
def extract_uuid (ru tu iu : Option String) : Option String :=
  pyOrS ru (pyOrS tu iu)

/-- the pay-url extraction chain of `create_invoice` (app.py lines 357-363),
over result.link / link / result.pay_url / pay_url / invoice.link. -/
def extract_pay_url (rl tl rp tp il : Option String) : Option String :=
  pyOrS rl (pyOrS tl (pyOrS rp (pyOrS tp il)))

/-- the endpoint loop of `create_invoice` (app.py lines 343-371), threading
`last_err` through the attempts. -/
def create_invoice_go : List CcAttempt → Option String → Except String (String × String)
  | [], last_err =>
    .error ("CryptoCloud create invoice failed: " ++ last_err.getD "None")
  | a :: rest, _last_err =>
    match a with
    | .exn e => create_invoice_go rest (some ("exception: " ++ e))
    | .resp code ru tu iu rl tl rp tp il =>
      if code ≥ 400 then
        create_invoice_go rest (some ("HTTP " ++ toString code))
      else
        let invoice_uuid := extract_uuid ru tu iu
        let pay_url := extract_pay_url rl tl rp tp il
        if pyTruthy invoice_uuid && pyTruthy pay_url then
          .ok (invoice_uuid.getD "", pay_url.getD "")
        else
          create_invoice_go rest (some "unexpected response")

/-- embeds `create_invoice` (app.py lines 321-371): missing configuration
raises before any attempt; otherwise the attempts are tried in order. -/
def create_invoice (envMissing : Bool) (attempts : List CcAttempt) :
    Except String (String × String) :=
  if envMissing then .error "CryptoCloud env vars missing"
  else create_invoice_go attempts none

/-- externally observable outcome of the buy callback branch. -/
inductive BuyOutcome where
  | unknownPackage
  | invoiceCreated (order_id pay_url : String)
  | errorMsg (e : String)
deriving Repr, DecidableEq

/-- embeds the `buy_` callback branch of `telegram_webhook`
(app.py lines 574-611): the Payment row is written only after
`create_invoice` returned an invoice id and a pay url. -/
def handle_buy (db : DB) (chat_id : Int) (package_code : String) (now : Int)
    (envMissing : Bool) (attempts : List CcAttempt) : DB × BuyOutcome :=
  match packages_get package_code with
  | none => (db, .unknownPackage)
  | some pk =>
    let order_id := toString chat_id ++ "_" ++ package_code ++ "_" ++ toString now
    let amount_usd := pk.1
    match create_invoice envMissing attempts with
    | .error e => (db, .errorMsg e)
    | .ok uv =>
      let p : Payment :=
        { telegram_id := chat_id, order_id := order_id, invoice_id := uv.1,
          package_code := package_code, amount_usd := amount_usd, status := "created" }
      ({ db with payments := db.payments ++ [p] }, .invoiceCreated order_id uv.2)

/-- fields of a parsed postback body that the handler reads
(app.py lines 634-648). -/
structure PostbackData where
  token : Option String
  status : Option String
  order_id : Option String
  invoice_uuid : Option String
  invoice_status : Option String
deriving Repr, DecidableEq

/-- HTTP response of the postback endpoint. -/
structure PostbackResponse where
  ok : Bool
  status_code : Nat
deriving Repr, DecidableEq

/-- the acknowledgment every post-parse branch of the handler returns. -/
def ackOk : PostbackResponse := { ok := true, status_code := 200 }

/-- Python `(x or "").lower().strip()` as used on status fields
(app.py lines 643 and 648). -/
def pyNorm (s : Option String) : String := pyStrip (pyLower (s.getD ""))

/-- the paid test of the handler (app.py line 650): only the token
`success`, in either status field, counts as paid. -/
def paid_flag (d : PostbackData) : Bool :=
  pyNorm d.invoice_status == "success" || pyNorm d.status == "success"

/-- the payment lookup of the handler (app.py lines 657-661): primary by
order id, falling back to processor invoice uuid only when the primary
lookup found nothing and the uuid is truthy. -/
def find_payment_idx (payments : List Payment) (order_id invoice_uuid : String) :
    Option (Nat × Payment) :=
  match findIdxElem? (fun p => p.order_id == order_id) payments with
  | some ip => some ip
  | none =>
    if invoice_uuid ≠ "" then
      findIdxElem? (fun p => p.invoice_id == invoice_uuid) payments
    else none

/-- embeds `cryptocloud_postback` after JSON parsing (app.py lines 633-691).
The first argument is the outcome of `verify_jwt_hs256` when a token and a
secret are present; the source catches a verification failure, prints it,
and continues, so the state transition never consults it. -/
def cryptocloud_postback (verifyResult : Option (Except String Unit))
    (d : PostbackData) (db : DB) : DB × PostbackResponse :=
  let _ := verifyResult
  let status := pyNorm d.status
  let order_id := pyStrip (d.order_id.getD "")
  let invoice_uuid := pyStrip (d.invoice_uuid.getD "")
  let invoice_status := pyNorm d.invoice_status
  let pf := invoice_status == "success" || status == "success"
  if order_id = "" then (db, ackOk)
  else
    match find_payment_idx db.payments order_id invoice_uuid with
    | none => (db, ackOk)
    | some ip =>
      let i := ip.1
      let pay := ip.2
      if pay.status == "paid" then (db, ackOk)
      else if pf = false then (db, ackOk)
      else
        let db1 : DB := { db with payments := db.payments.set i { pay with status := "paid" } }
        match credit_user_minutes db1 pay.telegram_id pay.package_code with
        | .ok r => (r.2, ackOk)
        | .error _ => (db1, ackOk)

/-- JSON values as delivered by `json.loads` (numbers as integers —
enough to distinguish strings, containers and other scalars for
truthiness and attribute errors). -/
inductive Json where
  | null
  | bool (b : Bool)
  | num (n : Int)
  | str (s : String)
  | arr (xs : List Json)
  | obj (fields : List (String × Json))

/-- Python truthiness of a JSON value. -/
def jTruthy : Json → Bool
  | .null => false
  | .bool b => b
  | .num n => n ≠ 0
  | .str s => s ≠ ""
  | .arr xs => !xs.isEmpty
  | .obj fs => !fs.isEmpty

/-- Python `x.get(key)`: `None` when the key is absent, AttributeError
when `x` is not a dict (app.py lines 634, 643-648). -/
def jGet (j : Json) (key : String) : Except String Json :=
  match j with
  | .obj fs => .ok (((fs.find? (fun kv => kv.1 == key)).map (fun kv => kv.2)).getD .null)
  | _ => .error "AttributeError"

/-- the `(x or "")` prelude of the `.lower().strip()` chains: a falsy
value becomes the empty string, a truthy non-string raises
AttributeError when the string method is called. -/
def pyStrOrEmpty (x : Json) : Except String String :=
  if jTruthy x then
    match x with
    | .str s => .ok s
    | _ => .error "AttributeError"
  else .ok ""

/-- the field-extraction prologue of `cryptocloud_postback`
(app.py lines 634-648) over a parsed JSON body, including its uncaught
exception paths: a non-dict body fails at the first `.get`, a truthy
non-string status or order id fails at `.lower()`/`.strip()`, and a
truthy non-dict `invoice_info` fails at its `.get`. -/
def parse_postback (j : Json) : Except String PostbackData := do
  let tokenRaw ← jGet j "token"
  let statusStr ← pyStrOrEmpty (← jGet j "status")
  let orderStr ← pyStrOrEmpty (← jGet j "order_id")
  let invoiceInfoRaw ← jGet j "invoice_info"
  let invoice_info := if jTruthy invoiceInfoRaw then invoiceInfoRaw else Json.obj []
  let uuidStr ← pyStrOrEmpty (← jGet invoice_info "uuid")
  let invStatusStr ← pyStrOrEmpty (← jGet invoice_info "invoice_status")
  let tokenStr : Option String :=
    match tokenRaw with
    | .str s => some s
    | _ => none
  pure (PostbackData.mk tokenStr (some statusStr) (some orderStr) (some uuidStr) (some invStatusStr))

/-- the whole endpoint (app.py lines 622-691): an unparsable body is
acknowledged with 200 (lines 628-631); a parseable body whose field
extraction raises escapes the handler uncaught, and the framework
answers HTTP 500 before any store access; otherwise the reconciliation
handler runs. -/
def cryptocloud_postback_endpoint (verifyResult : Option (Except String Unit))
    (body : Option Json) (db : DB) : DB × PostbackResponse :=
  match body with
  | none => (db, { ok := false, status_code := 200 })
  | some j =>
    match parse_postback j with
    | .error _ => (db, { ok := false, status_code := 500 })
    | .ok d => cryptocloud_postback verifyResult d db

/-- one webhook-level operation of the system, for stating invariants over
arbitrary operation sequences. -/
inductive Op where
  | start (chat_id : Int)
  | voice (chat_id duration : Int)
  | langCb (chat_id : Int) (cb_data : String)
  | buy (chat_id : Int) (package_code : String) (now : Int)
      (envMissing : Bool) (attempts : List CcAttempt)
  | creditOp (tid : Int) (package_code : String)
  | postbackOp (verifyResult : Option (Except String Unit)) (d : PostbackData)
deriving Repr

/-- state transition of one operation. -/
def applyOp (db : DB) : Op → DB
  | .start c => (get_or_create_user db c).2
  | .voice c dur => (handle_voice db c dur).1
  | .langCb c s => handle_lang db c s
  | .buy c pk now env atts => (handle_buy db c pk now env atts).1
  | .creditOp t pk =>
    match credit_user_minutes db t pk with
    | .ok r => r.2
    | .error _ => db
  | .postbackOp vr d => (cryptocloud_postback vr d db).1

/-- state after a sequence of operations. -/
def applyOps (db : DB) (ops : List Op) : DB := ops.foldl applyOp db

/-- balance of the first account with this telegram id (0 when absent). -/
def dbUserBalance (db : DB) (tid : Int) : Int :=
  (((db.users.find? (fun v => v.telegram_id == tid)).bind (fun u => u.balance_seconds)).getD 0)

/-- trial counter of the first account with this telegram id (0 when absent). -/
def dbUserTrial (db : DB) (tid : Int) : Int :=
  (((db.users.find? (fun v => v.telegram_id == tid)).bind (fun u => u.trial_left)).getD 0)

/-- Modelled from the spec: the status-vocabulary mapping §4.2 prescribes,
a case-insensitive membership test against the success tokens. -/
def spec_is_paid (s : String) : Bool :=
  ["paid", "success", "completed", "confirmed"].contains (pyLower s)

/-- the row written by a credit: same user with the balance increased. -/
def credited_row (u : User) (add : Int) : User :=
  { u with balance_seconds := some (u.balance_seconds.getD 0 + add) }

/-- the database produced by a successful `credit_user_minutes`, as a
standalone function (identical body, minus the package lookup). -/
def apply_credit (db : DB) (tid : Int) (add : Int) : DB :=
  let r := get_or_create_user db tid
  let user := r.1
  let db1 := r.2
  let u' := { user with balance_seconds := some (user.balance_seconds.getD 0 + add) }
  { db1 with users := updateFirst (fun v => v.telegram_id == tid) (fun _ => u') db1.users }

/-- the row written by a balance debit. -/
def debit_row (u : User) (d : Int) : User :=
  { u with balance_seconds := some (u.balance_seconds.getD 0 - d) }

/-- the row written by a trial decrement. -/
def trial_row (u : User) : User :=
  { u with trial_left := some (u.trial_left.getD 0 - 1), trial_messages := some (u.trial_left.getD 0 - 1) }

def paid_row (p : Payment) : Payment := { p with status := "paid" }

/-- the row written by the language-selection callback. -/
def lang_row (u : User) (code : String) : User := { u with target_lang := some code }

/-- a database-wide row invariant: every user row satisfies `P`. -/
def DBInv (P : User → Prop) (db : DB) : Prop := ∀ u ∈ db.users, P u

/-- closure of a row predicate under every row transformation the
handlers perform, each with the guard the code checks before writing. -/
structure RowInvPres (P : User → Prop) : Prop where
  repairP : ∀ u : User, P u → P (repair_user u)
  newP : ∀ t : Int, P (newUser t)
  debitP : ∀ (u : User) (d : Int), P u → d ≤ u.balance_seconds.getD 0 → P (debit_row u d)
  trialP : ∀ u : User, P u → 0 < u.trial_left.getD 0 → P (trial_row u)
  creditP : ∀ (u : User) (pr : Int × Int) (code : String),
    packages_get code = some pr → P u → P (credited_row u (pr.2 * 60))
  langP : ∀ (u : User) (c : String), langCodes.contains c = true → P u → P (lang_row u c)

/-- non-negativity of balance and trial counter, the §8 invariant. -/
def NonnegRow (u : User) : Prop :=
  0 ≤ u.balance_seconds.getD 0 ∧ 0 ≤ u.trial_left.getD 0

/-- the target language is present and belongs to the allowed set. -/
def langRowOk (u : User) : Bool :=
  match u.target_lang with
  | some l => langCodes.contains l
  | none => false

/-! ### Concrete instances used by individual claims -/

/-- a parsed notification whose processor status is `paid`. -/
def c7_note : PostbackData :=
  { token := none, status := some "paid", order_id := some "1_P30_1",
    invoice_uuid := none, invoice_status := none }

/-- account with no balance, owner of `c1_pay`. -/
def c1_user : User :=
  { telegram_id := 7, target_lang := some "fr", trial_left := some 5,
    trial_messages := some 5, is_subscribed := false, balance_seconds := some 0 }

/-- an invoice in `created` state for package P30. -/
def c1_pay : Payment :=
  { telegram_id := 7, order_id := "7_P30_1", invoice_id := "uuid-1",
    package_code := "P30", amount_usd := 3, status := "created" }

/-- store holding `c1_user` and `c1_pay`. -/
def c1_db : DB := { users := [c1_user], payments := [c1_pay] }

/-- a paid notification for `c1_pay` carrying a token whose signature does
not verify. -/
def c1_note : PostbackData :=
  { token := some "tampered.token.sig", status := some "success",
    order_id := some "7_P30_1", invoice_uuid := some "uuid-1", invoice_status := none }

/-- account with one trial message left and a positive balance. -/
def c2_user : User :=
  { telegram_id := 1, target_lang := some "fr", trial_left := some 1,
    trial_messages := some 1, is_subscribed := false, balance_seconds := some 120 }

/-- store holding only `c2_user`. -/
def c2_db : DB := { users := [c2_user], payments := [] }

/-- account with no balance, owner of `c3_pay`. -/
def c3_user : User :=
  { telegram_id := 9, target_lang := some "fr", trial_left := some 5,
    trial_messages := some 5, is_subscribed := false, balance_seconds := some 0 }

/-- an invoice whose package code is no longer in the SKU table. -/
def c3_pay : Payment :=
  { telegram_id := 9, order_id := "9_P45_2", invoice_id := "uuid-3",
    package_code := "P45", amount_usd := 5, status := "created" }

/-- store holding `c3_user` and the stale-package invoice. -/
def c3_db : DB := { users := [c3_user], payments := [c3_pay] }

/-- a paid notification for the stale-package invoice. -/
def c3_note : PostbackData :=
  { token := none, status := some "success", order_id := some "9_P45_2",
    invoice_uuid := some "uuid-3", invoice_status := none }

/-- account owning `c4_pay`. -/
def c4_user : User :=
  { telegram_id := 3, target_lang := some "fr", trial_left := some 5,
    trial_messages := some 5, is_subscribed := false, balance_seconds := some 42 }

/-- an invoice in `created` state for package P30. -/
def c4_pay : Payment :=
  { telegram_id := 3, order_id := "3_P30_4", invoice_id := "uu-4",
    package_code := "P30", amount_usd := 3, status := "created" }

/-- store holding `c4_user` and `c4_pay`. -/
def c4_db : DB := { users := [c4_user], payments := [c4_pay] }

/-- a paid notification for `c4_pay`, matched by order id. -/
def c4_note : PostbackData :=
  { token := none, status := some "success", order_id := some "3_P30_4",
    invoice_uuid := some "uu-4", invoice_status := none }

/-- account owning `c6_pay`. -/
def c6_user : User :=
  { telegram_id := 5, target_lang := some "fr", trial_left := some 5,
    trial_messages := some 5, is_subscribed := false, balance_seconds := some 0 }

/-- an invoice in `created` state for package P60. -/
def c6_pay : Payment :=
  { telegram_id := 5, order_id := "5_P60_3", invoice_id := "uu-6",
    package_code := "P60", amount_usd := 8, status := "created" }

/-- store holding `c6_user` and `c6_pay`. -/
def c6_db : DB := { users := [c6_user], payments := [c6_pay] }

/-- a paid notification carrying only the processor invoice id. -/
def c6_note : PostbackData :=
  { token := none, status := some "success", order_id := none,
    invoice_uuid := some "uu-6", invoice_status := none }

/-- a paid notification with a non-empty order id matching no invoice, plus
the processor invoice id of `c6_pay`. -/
def c6b_note : PostbackData :=
  { token := none, status := some "success", order_id := some "mismatched_order",
    invoice_uuid := some "uu-6", invoice_status := none }

/-- a single invoice-creation attempt that raises. -/
def c8_atts : List CcAttempt := [CcAttempt.exn "timeout"]

/-- operation sequence used to evaluate the non-negativity invariant. -/
def c5_ops : List Op := [Op.start 1, Op.voice 1 30, Op.creditOp 1 "P30", Op.voice 1 45]

/-- operation sequence used to evaluate the language invariant. -/
def c10_ops : List Op := [Op.start 4, Op.langCb 4 "lang_xx", Op.langCb 4 "lang_en", Op.voice 4 30]

/-- whether the first account with this telegram id (if any) carries a
supported language. -/
def dbUserLangOk (db : DB) (tid : Int) : Bool :=
  ((db.users.find? (fun v => v.telegram_id == tid)).map langRowOk).getD true

/-- account with no balance, owner of `c9_pay`. -/
def c9_user : User :=
  { telegram_id := 11, target_lang := some "fr", trial_left := some 5,
    trial_messages := some 5, is_subscribed := false, balance_seconds := some 0 }

/-- an invoice in `created` state, present while the malformed bodies
arrive. -/
def c9_pay : Payment :=
  { telegram_id := 11, order_id := "11_P30_8", invoice_id := "uu-9",
    package_code := "P30", amount_usd := 3, status := "created" }

/-- store holding `c9_user` and `c9_pay`. -/
def c9_db : DB := { users := [c9_user], payments := [c9_pay] }

/-! ### List helper lemmas for the row-mutation model -/

theorem find?_updateFirst_self (p : α → Bool) (f : α → α) (l : List α) (u : α)
    (h : l.find? p = some u) (hf : p (f u) = true) :
    (updateFirst p f l).find? p = some (f u) := by
  induction l with
  | nil => simp at h
  | cons x xs ih =>
    by_cases hx : p x = true
    · rw [List.find?_cons_of_pos _ hx] at h
      cases h
      simp only [updateFirst, hx, if_true]
      exact List.find?_cons_of_pos _ hf
    · rw [List.find?_cons_of_neg _ hx] at h
      simp only [updateFirst, hx, if_false, Bool.false_eq_true]
      rw [List.find?_cons_of_neg _ hx]
      exact ih h

theorem updateFirst_of_find?_none (p : α → Bool) (f : α → α) (l : List α)
    (h : l.find? p = none) : updateFirst p f l = l := by
  induction l with
  | nil => rfl
  | cons x xs ih =>
    by_cases hx : p x = true
    · rw [List.find?_cons_of_pos _ hx] at h
      cases h
    · rw [List.find?_cons_of_neg _ hx] at h
      simp only [updateFirst, hx, if_false, Bool.false_eq_true]
      rw [ih h]

theorem find?_updateFirst_of_ne (p q : α → Bool) (f : α → α) (l : List α)
    (hpq : ∀ a, p a = true → q a = false ∧ q (f a) = false) :
    (updateFirst p f l).find? q = l.find? q := by
  induction l with
  | nil => rfl
  | cons x xs ih =>
    by_cases hx : p x = true
    · obtain ⟨h1, h2⟩ := hpq x hx
      simp only [updateFirst, hx, if_true]
      rw [List.find?_cons_of_neg _ (by simp [h2]), List.find?_cons_of_neg _ (by simp [h1])]
    · simp only [updateFirst, hx, if_false, Bool.false_eq_true]
      by_cases hq : q x = true
      · rw [List.find?_cons_of_pos _ hq, List.find?_cons_of_pos _ hq]
      · rw [List.find?_cons_of_neg _ hq, List.find?_cons_of_neg _ hq]
        exact ih

theorem updateFirst_append_of_none (p : α → Bool) (f : α → α) (l : List α) (x : α)
    (h : l.find? p = none) :
    updateFirst p f (l ++ [x]) = l ++ updateFirst p f [x] := by
  induction l with
  | nil => rfl
  | cons a as ih =>
    by_cases ha : p a = true
    · rw [List.find?_cons_of_pos _ ha] at h
      cases h
    · rw [List.find?_cons_of_neg _ ha] at h
      show (if p a = true then f a :: (as ++ [x]) else a :: updateFirst p f (as ++ [x]))
        = a :: (as ++ updateFirst p f [x])
      rw [if_neg ha, ih h]

theorem mem_updateFirst (p : α → Bool) (f : α → α) (l : List α) (x : α)
    (hx : x ∈ updateFirst p f l) : x ∈ l ∨ ∃ y, y ∈ l ∧ x = f y := by
  induction l with
  | nil => cases hx
  | cons a as ih =>
    by_cases ha : p a = true
    · simp only [updateFirst, ha, if_true] at hx
      rcases List.mem_cons.mp hx with h | h
      · exact Or.inr ⟨a, List.mem_cons_self a as, h⟩
      · exact Or.inl (List.mem_cons_of_mem a h)
    · simp only [updateFirst, ha, if_false, Bool.false_eq_true] at hx
      rcases List.mem_cons.mp hx with h | h
      · exact Or.inl (h ▸ List.mem_cons_self a as)
      · rcases ih h with h' | ⟨y, hy, hxy⟩
        · exact Or.inl (List.mem_cons_of_mem a h')
        · exact Or.inr ⟨y, List.mem_cons_of_mem a hy, hxy⟩

theorem findIdxElem?_pred (p : α → Bool) (l : List α) (i : Nat) (x : α)
    (h : findIdxElem? p l = some (i, x)) : p x = true := by
  induction l generalizing i with
  | nil => cases h
  | cons a as ih =>
    by_cases ha : p a = true
    · simp only [findIdxElem?, ha, if_true, Option.some.injEq] at h
      cases h
      exact ha
    · simp only [findIdxElem?, ha, if_false, Bool.false_eq_true, Option.map_eq_some'] at h
      obtain ⟨e, he, hixe⟩ := h
      cases hixe
      exact ih e.1 he

theorem findIdxElem?_mem (p : α → Bool) (l : List α) (i : Nat) (x : α)
    (h : findIdxElem? p l = some (i, x)) : x ∈ l := by
  induction l generalizing i with
  | nil => cases h
  | cons a as ih =>
    by_cases ha : p a = true
    · simp only [findIdxElem?, ha, if_true, Option.some.injEq] at h
      cases h
      exact List.mem_cons_self _ _
    · simp only [findIdxElem?, ha, if_false, Bool.false_eq_true, Option.map_eq_some'] at h
      obtain ⟨e, he, hixe⟩ := h
      cases hixe
      exact List.mem_cons_of_mem a (ih e.1 he)

theorem findIdxElem?_set_self (p : α → Bool) (l : List α) (i : Nat) (x y : α)
    (h : findIdxElem? p l = some (i, x)) (hy : p y = true) :
    findIdxElem? p (l.set i y) = some (i, y) := by
  induction l generalizing i with
  | nil => cases h
  | cons a as ih =>
    by_cases ha : p a = true
    · simp only [findIdxElem?, ha, if_true, Option.some.injEq] at h
      injection h with h1 h2
      subst h1
      simp only [List.set_cons_zero, findIdxElem?, hy, if_true]
    · simp only [findIdxElem?, ha, if_false, Bool.false_eq_true, Option.map_eq_some'] at h
      obtain ⟨e, he, hixe⟩ := h
      injection hixe with hi hx
      subst hi
      have he' : findIdxElem? p as = some (e.1, x) := by
        rw [he, ← hx]
      simp only [List.set_cons_succ, findIdxElem?, ha, if_false, Bool.false_eq_true]
      rw [ih e.1 he']
      rfl

theorem findIdxElem?_eq_none_of_all (p : α → Bool) (l : List α)
    (h : ∀ x ∈ l, p x = false) : findIdxElem? p l = none := by
  induction l with
  | nil => rfl
  | cons a as ih =>
    have ha := h a (List.mem_cons_self a as)
    simp only [findIdxElem?, ha, if_false, Bool.false_eq_true]
    rw [ih (fun x hx => h x (List.mem_cons_of_mem a hx))]
    rfl

theorem findIdxElem?_none_all (p : α → Bool) (l : List α)
    (h : findIdxElem? p l = none) : ∀ x ∈ l, p x = false := by
  induction l with
  | nil => intro x hx; cases hx
  | cons a as ih =>
    by_cases ha : p a = true
    · simp only [findIdxElem?, ha, if_true] at h
      exact (Option.some_ne_none _ h).elim
    · simp only [findIdxElem?, ha, if_false, Bool.false_eq_true, Option.map_eq_none'] at h
      intro x hx
      rcases List.mem_cons.mp hx with h' | h'
      · subst h'
        exact Bool.eq_false_iff.mpr ha
      · exact ih h x h'

/-! ### Facts about user repair, lookup and credit -/

/-- normal form of the NULL-repair: ids and present values are preserved,
NULL columns get their defaults. -/
theorem repair_user_eq (u : User) : repair_user u =
    { telegram_id := u.telegram_id,
      target_lang := some (u.target_lang.getD "fr"),
      trial_left := some (u.trial_left.getD TRIAL_LIMIT),
      trial_messages := if u.trial_messages = none
        then some (u.trial_left.getD TRIAL_LIMIT) else u.trial_messages,
      is_subscribed := u.is_subscribed,
      balance_seconds := some (u.balance_seconds.getD 0) } := by
  obtain ⟨tid, lang, tl, tm, sub, bal⟩ := u
  cases lang <;> cases tl <;> cases tm <;> cases bal <;> rfl

theorem repair_telegram_id (u : User) : (repair_user u).telegram_id = u.telegram_id := by
  rw [repair_user_eq]

theorem repair_balance_getD (u : User) :
    (repair_user u).balance_seconds.getD 0 = u.balance_seconds.getD 0 := by
  rw [repair_user_eq]
  rfl

theorem repair_balance_some (u : User) (b : Int) (h : u.balance_seconds = some b) :
    (repair_user u).balance_seconds = some b := by
  rw [repair_user_eq, h]
  rfl

theorem repair_trial_some (u : User) (t : Int) (h : u.trial_left = some t) :
    (repair_user u).trial_left = some t := by
  rw [repair_user_eq, h]
  rfl

theorem get_or_create_payments (db : DB) (tid : Int) :
    (get_or_create_user db tid).2.payments = db.payments := by
  unfold get_or_create_user
  cases db.users.find? (fun u => u.telegram_id == tid) <;> rfl

theorem find?_update_self_user (users : List User) (tid : Int) (u u2 : User)
    (hf : users.find? (fun v => v.telegram_id == tid) = some u)
    (h2 : u2.telegram_id = tid) :
    (updateFirst (fun v => v.telegram_id == tid) (fun _ => u2) users).find?
      (fun v => v.telegram_id == tid) = some u2 := by
  apply find?_updateFirst_self _ _ _ _ hf
  simp [h2]

theorem find?_update_other_user (users : List User) (tid t : Int) (f : User → User)
    (hpres : ∀ a : User, (a.telegram_id == tid) = true → (f a).telegram_id = tid)
    (ht : t ≠ tid) :
    (updateFirst (fun v => v.telegram_id == tid) f users).find? (fun v => v.telegram_id == t)
      = users.find? (fun v => v.telegram_id == t) := by
  apply find?_updateFirst_of_ne
  intro a ha
  constructor
  · have ha' : a.telegram_id = tid := by simpa using ha
    simp only [ha']
    simp [Ne.symm ht]
  · simp only [hpres a ha]
    simp [Ne.symm ht]

theorem credit_user_minutes_eq (db : DB) (tid : Int) (pkg : String) (usd mins : Int)
    (h : packages_get pkg = some (usd, mins)) :
    credit_user_minutes db tid pkg = .ok (mins * 60, apply_credit db tid (mins * 60)) := by
  unfold credit_user_minutes apply_credit
  rw [h]

theorem credited_row_id (u : User) (add : Int) :
    (credited_row u add).telegram_id = u.telegram_id := rfl

theorem credited_row_balance (u : User) (add : Int) :
    (credited_row u add).balance_seconds.getD 0 = u.balance_seconds.getD 0 + add := rfl

theorem apply_credit_found (db : DB) (tid : Int) (add : Int) (u : User)
    (hf : db.users.find? (fun v => v.telegram_id == tid) = some u) :
    apply_credit db tid add =
      { users := updateFirst (fun v => v.telegram_id == tid)
          (fun _ => credited_row (repair_user u) add)
          (updateFirst (fun v => v.telegram_id == tid) (fun _ => repair_user u) db.users),
        payments := db.payments } := by
  unfold apply_credit get_or_create_user
  rw [hf]
  rfl

theorem apply_credit_new (db : DB) (tid : Int) (add : Int)
    (hf : db.users.find? (fun v => v.telegram_id == tid) = none) :
    apply_credit db tid add =
      { users := db.users ++ [credited_row (newUser tid) add],
        payments := db.payments } := by
  have happ := updateFirst_append_of_none (fun v : User => v.telegram_id == tid)
    (fun _ => credited_row (newUser tid) add) db.users (newUser tid) hf
  have hnewt : ((newUser tid).telegram_id == tid) = true := by simp [newUser]
  have hsingle : updateFirst (fun v : User => v.telegram_id == tid)
      (fun _ => credited_row (newUser tid) add) [newUser tid] = [credited_row (newUser tid) add] := by
    simp [updateFirst, hnewt]
  unfold apply_credit get_or_create_user
  rw [hf]
  show DB.mk (updateFirst (fun v => v.telegram_id == tid) (fun _ => credited_row (newUser tid) add) (db.users ++ [newUser tid])) db.payments = _
  rw [happ, hsingle]

theorem apply_credit_payments (db : DB) (tid : Int) (add : Int) :
    (apply_credit db tid add).payments = db.payments := by
  cases hf : db.users.find? (fun v => v.telegram_id == tid) with
  | some u => rw [apply_credit_found db tid add u hf]
  | none => rw [apply_credit_new db tid add hf]

theorem apply_credit_balance (db : DB) (tid : Int) (add : Int) :
    dbUserBalance (apply_credit db tid add) tid = dbUserBalance db tid + add := by
  cases hf : db.users.find? (fun v => v.telegram_id == tid) with
  | some u =>
    rw [apply_credit_found db tid add u hf]
    have hrid : (repair_user u).telegram_id = tid := by
      have h' := List.find?_some hf
      have hu : u.telegram_id = tid := by simpa using h'
      rw [repair_telegram_id, hu]
    have hf1 := find?_update_self_user db.users tid u (repair_user u) hf hrid
    have hf2 := find?_update_self_user _ tid (repair_user u)
      (credited_row (repair_user u) add) hf1 (by rw [credited_row_id, hrid])
    simp only [dbUserBalance, hf2, hf]
    show (credited_row (repair_user u) add).balance_seconds.getD 0
      = u.balance_seconds.getD 0 + add
    rw [credited_row_balance, repair_balance_getD]
  | none =>
    rw [apply_credit_new db tid add hf]
    have hct : ((credited_row (newUser tid) add).telegram_id == tid) = true := by
      rw [credited_row_id]
      simp [newUser]
    simp only [dbUserBalance, List.find?_append, hf, List.find?_cons, hct]
    simp [credited_row, newUser]

theorem apply_credit_balance_other (db : DB) (tid t : Int) (add : Int) (ht : t ≠ tid) :
    dbUserBalance (apply_credit db tid add) t = dbUserBalance db t := by
  cases hf : db.users.find? (fun v => v.telegram_id == tid) with
  | some u =>
    rw [apply_credit_found db tid add u hf]
    have hrid : (repair_user u).telegram_id = tid := by
      have h' := List.find?_some hf
      have hu : u.telegram_id = tid := by simpa using h'
      rw [repair_telegram_id, hu]
    have e1 := find?_update_other_user db.users tid t (fun _ => repair_user u)
      (fun a _ => hrid) ht
    have e2 := find?_update_other_user
      (updateFirst (fun v => v.telegram_id == tid) (fun _ => repair_user u) db.users) tid t
      (fun _ => credited_row (repair_user u) add)
      (fun a _ => by rw [credited_row_id, hrid]) ht
    simp only [dbUserBalance, e2, e1]
  | none =>
    rw [apply_credit_new db tid add hf]
    have hct : ((credited_row (newUser tid) add).telegram_id == t) = false := by
      rw [credited_row_id]
      simp [newUser, Ne.symm ht]
    simp only [dbUserBalance, List.find?_append, List.find?_cons, hct]
    simp

/-! ### Branch equations for the voice handler -/

theorem handle_voice_balance_eq (db : DB) (tid dur : Int) (u : User)
    (hf : db.users.find? (fun v => v.telegram_id == tid) = some u)
    (hpos : (repair_user u).balance_seconds.getD 0 > 0)
    (hcov : ¬ ((repair_user u).balance_seconds.getD 0 < max 1 dur)) :
    handle_voice db tid dur =
      (DB.mk (updateFirst (fun v => v.telegram_id == tid)
          (fun _ => debit_row (repair_user u) (max 1 dur))
          (updateFirst (fun v => v.telegram_id == tid) (fun _ => repair_user u) db.users))
        db.payments, VoiceOutcome.okBalance) := by
  simp only [handle_voice, get_or_create_user, hf]
  rw [if_pos hpos, if_neg hcov]
  rfl

theorem handle_voice_insufficient_eq (db : DB) (tid dur : Int) (u : User)
    (hf : db.users.find? (fun v => v.telegram_id == tid) = some u)
    (hpos : (repair_user u).balance_seconds.getD 0 > 0)
    (hlt : (repair_user u).balance_seconds.getD 0 < max 1 dur) :
    handle_voice db tid dur =
      (DB.mk (updateFirst (fun v => v.telegram_id == tid) (fun _ => repair_user u) db.users)
        db.payments, VoiceOutcome.insufficientBalance) := by
  simp only [handle_voice, get_or_create_user, hf]
  rw [if_pos hpos, if_pos hlt]

theorem handle_voice_trial_over_eq (db : DB) (tid dur : Int) (u : User)
    (hf : db.users.find? (fun v => v.telegram_id == tid) = some u)
    (hnpos : ¬ ((repair_user u).balance_seconds.getD 0 > 0))
    (hto : (repair_user u).trial_left.getD 0 ≤ 0) :
    handle_voice db tid dur =
      (DB.mk (updateFirst (fun v => v.telegram_id == tid) (fun _ => repair_user u) db.users)
        db.payments, VoiceOutcome.trialOver) := by
  simp only [handle_voice, get_or_create_user, hf]
  rw [if_neg hnpos, if_pos hto]

theorem handle_voice_cap_eq (db : DB) (tid dur : Int) (u : User)
    (hf : db.users.find? (fun v => v.telegram_id == tid) = some u)
    (hnpos : ¬ ((repair_user u).balance_seconds.getD 0 > 0))
    (hnto : ¬ ((repair_user u).trial_left.getD 0 ≤ 0))
    (hcap : dur > TRIAL_MAX_SECONDS_PER_MESSAGE) :
    handle_voice db tid dur =
      (DB.mk (updateFirst (fun v => v.telegram_id == tid) (fun _ => repair_user u) db.users)
        db.payments, VoiceOutcome.trialCap) := by
  simp only [handle_voice, get_or_create_user, hf]
  rw [if_neg hnpos, if_neg hnto, if_pos hcap]

theorem handle_voice_trial_eq (db : DB) (tid dur : Int) (u : User)
    (hf : db.users.find? (fun v => v.telegram_id == tid) = some u)
    (hnpos : ¬ ((repair_user u).balance_seconds.getD 0 > 0))
    (hnto : ¬ ((repair_user u).trial_left.getD 0 ≤ 0))
    (hncap : ¬ (dur > TRIAL_MAX_SECONDS_PER_MESSAGE)) :
    handle_voice db tid dur =
      (DB.mk (updateFirst (fun v => v.telegram_id == tid)
          (fun _ => trial_row (repair_user u))
          (updateFirst (fun v => v.telegram_id == tid) (fun _ => repair_user u) db.users))
        db.payments, VoiceOutcome.okTrial) := by
  simp only [handle_voice, get_or_create_user, hf]
  rw [if_neg hnpos, if_neg hnto, if_neg hncap]
  rfl

theorem handle_voice_new_cap_eq (db : DB) (tid dur : Int)
    (hf : db.users.find? (fun v => v.telegram_id == tid) = none)
    (hcap : dur > TRIAL_MAX_SECONDS_PER_MESSAGE) :
    handle_voice db tid dur =
      (DB.mk (db.users ++ [newUser tid]) db.payments, VoiceOutcome.trialCap) := by
  simp only [handle_voice, get_or_create_user, hf]
  rw [if_neg (by norm_num [newUser] : ¬ ((newUser tid).balance_seconds.getD 0 > 0)),
    if_neg (by norm_num [newUser, TRIAL_LIMIT] : ¬ ((newUser tid).trial_left.getD 0 ≤ 0)),
    if_pos hcap]

theorem handle_voice_new_trial_eq (db : DB) (tid dur : Int)
    (hf : db.users.find? (fun v => v.telegram_id == tid) = none)
    (hncap : ¬ (dur > TRIAL_MAX_SECONDS_PER_MESSAGE)) :
    handle_voice db tid dur =
      (DB.mk (db.users ++ [trial_row (newUser tid)]) db.payments, VoiceOutcome.okTrial) := by
  have hnewt : ((newUser tid).telegram_id == tid) = true := by simp [newUser]
  have happ := updateFirst_append_of_none (fun v : User => v.telegram_id == tid)
    (fun _ => trial_row (newUser tid)) db.users (newUser tid) hf
  have hsingle : updateFirst (fun v : User => v.telegram_id == tid)
      (fun _ => trial_row (newUser tid)) [newUser tid] = [trial_row (newUser tid)] := by
    simp [updateFirst, hnewt]
  simp only [handle_voice, get_or_create_user, hf]
  rw [if_neg (by norm_num [newUser] : ¬ ((newUser tid).balance_seconds.getD 0 > 0)),
    if_neg (by norm_num [newUser, TRIAL_LIMIT] : ¬ ((newUser tid).trial_left.getD 0 ≤ 0)),
    if_neg hncap]
  show (DB.mk (updateFirst (fun v => v.telegram_id == tid)
      (fun _ => trial_row (newUser tid)) (db.users ++ [newUser tid])) db.payments,
    VoiceOutcome.okTrial) = _
  rw [happ, hsingle]

/-! ### Branch equations for the postback handler -/
theorem credit_user_minutes_err (db : DB) (tid : Int) (pkg : String)
    (h : packages_get pkg = none) :
    credit_user_minutes db tid pkg = .error "Unknown package_code" := by
  unfold credit_user_minutes
  rw [h]

theorem postback_empty_order_eq (vr : Option (Except String Unit)) (d : PostbackData) (db : DB)
    (ho : pyStrip (d.order_id.getD "") = "") :
    cryptocloud_postback vr d db = (db, ackOk) := by
  simp only [cryptocloud_postback]
  rw [if_pos ho]

theorem postback_not_found_eq (vr : Option (Except String Unit)) (d : PostbackData) (db : DB)
    (ho : ¬ (pyStrip (d.order_id.getD "") = ""))
    (hfind : find_payment_idx db.payments (pyStrip (d.order_id.getD ""))
      (pyStrip (d.invoice_uuid.getD "")) = none) :
    cryptocloud_postback vr d db = (db, ackOk) := by
  simp only [cryptocloud_postback]
  rw [if_neg ho]
  simp only [hfind]

theorem postback_already_paid_eq (vr : Option (Except String Unit)) (d : PostbackData) (db : DB)
    (i : Nat) (p : Payment)
    (ho : ¬ (pyStrip (d.order_id.getD "") = ""))
    (hfind : find_payment_idx db.payments (pyStrip (d.order_id.getD ""))
      (pyStrip (d.invoice_uuid.getD "")) = some (i, p))
    (hp : (p.status == "paid") = true) :
    cryptocloud_postback vr d db = (db, ackOk) := by
  simp only [cryptocloud_postback]
  rw [if_neg ho]
  simp only [hfind, hp, if_true]

theorem postback_not_paid_eq (vr : Option (Except String Unit)) (d : PostbackData) (db : DB)
    (i : Nat) (p : Payment)
    (ho : ¬ (pyStrip (d.order_id.getD "") = ""))
    (hfind : find_payment_idx db.payments (pyStrip (d.order_id.getD ""))
      (pyStrip (d.invoice_uuid.getD "")) = some (i, p))
    (hp : (p.status == "paid") = false)
    (hpf : paid_flag d = false) :
    cryptocloud_postback vr d db = (db, ackOk) := by
  simp only [paid_flag] at hpf
  simp only [cryptocloud_postback]
  rw [if_neg ho]
  simp only [hfind, hp, Bool.false_eq_true, if_false, hpf, if_pos]

theorem postback_paid_known_eq (vr : Option (Except String Unit)) (d : PostbackData) (db : DB)
    (i : Nat) (p : Payment) (usd mins : Int)
    (ho : ¬ (pyStrip (d.order_id.getD "") = ""))
    (hfind : find_payment_idx db.payments (pyStrip (d.order_id.getD ""))
      (pyStrip (d.invoice_uuid.getD "")) = some (i, p))
    (hp : (p.status == "paid") = false)
    (hpf : paid_flag d = true)
    (hpkg : packages_get p.package_code = some (usd, mins)) :
    cryptocloud_postback vr d db =
      (apply_credit (DB.mk db.users (db.payments.set i (paid_row p))) p.telegram_id (mins * 60),
       ackOk) := by
  simp only [paid_flag] at hpf
  simp only [cryptocloud_postback]
  rw [if_neg ho]
  simp only [hfind, hp, Bool.false_eq_true, if_false, hpf]
  rw [if_neg (by simp : ¬ (true = false))]
  rw [credit_user_minutes_eq _ _ _ usd mins hpkg]
  rfl

theorem postback_paid_unknown_eq (vr : Option (Except String Unit)) (d : PostbackData) (db : DB)
    (i : Nat) (p : Payment)
    (ho : ¬ (pyStrip (d.order_id.getD "") = ""))
    (hfind : find_payment_idx db.payments (pyStrip (d.order_id.getD ""))
      (pyStrip (d.invoice_uuid.getD "")) = some (i, p))
    (hp : (p.status == "paid") = false)
    (hpf : paid_flag d = true)
    (hpkg : packages_get p.package_code = none) :
    cryptocloud_postback vr d db =
      (DB.mk db.users (db.payments.set i (paid_row p)), ackOk) := by
  simp only [paid_flag] at hpf
  simp only [cryptocloud_postback]
  rw [if_neg ho]
  simp only [hfind, hp, Bool.false_eq_true, if_false, hpf]
  rw [if_neg (by simp : ¬ (true = false))]
  rw [credit_user_minutes_err _ _ _ hpkg]
  rfl


/-! ### Claim theorems -/

/-- after a type-correct field extraction, every branch of the
reconciliation handler answers with the 200 success acknowledgment,
whatever the business outcome (not found, not paid, already paid,
credit failure). -/
theorem postback_always_acks (vr : Option (Except String Unit)) (d : PostbackData) (db : DB) :
    (cryptocloud_postback vr d db).2.status_code = 200 ∧
    (cryptocloud_postback vr d db).2.ok = true := by
  suffices h : (cryptocloud_postback vr d db).2 = ackOk by
    rw [h]
    exact ⟨rfl, rfl⟩
  simp only [cryptocloud_postback]
  repeat' split
  all_goals rfl

/-- C7 (amended): the notification-normalization step computes the boolean
"is paid" as true exactly when the lowercased, stripped
`invoice_info.invoice_status` or the lowercased, stripped top-level
`status` equals the single token `success`; every other string maps to
not-paid. -/
theorem paid_flag_success_only (d : PostbackData) :
    paid_flag d = true ↔
      (pyStrip (pyLower (d.invoice_status.getD "")) = "success" ∨
       pyStrip (pyLower (d.status.getD "")) = "success") := by
  unfold paid_flag pyNorm
  simp [Bool.or_eq_true, beq_iff_eq]

/-- C7 (counterexample): the claim says the success-token set includes
`paid`, but the code maps the processor status `paid` to not-paid, while
the mapping the spec describes accepts it. -/
theorem status_paid_not_accepted :
    paid_flag c7_note = false ∧ spec_is_paid ((c7_note.status).getD "") = true := by
  decide

/-- C1: on a notification whose signed token fails verification, the code
only logs the failure and continues, so a paid notification with a bad
signature still flips the invoice to `paid` and credits the balance —
the claim that no state is mutated fails on this input. -/
theorem invalid_signature_postback_still_credits :
    dbUserBalance c1_db 7 = 0 ∧
    c1_db.payments.map (fun p => p.status) = ["created"] ∧
    dbUserBalance (cryptocloud_postback (some (Except.error "JWT signature invalid")) c1_note c1_db).1 7 = 1800 ∧
    ((cryptocloud_postback (some (Except.error "JWT signature invalid")) c1_note c1_db).1).payments.map (fun p => p.status) = ["paid"] := by
  decide

/-! ### Row-field and lookup lemmas -/

theorem debit_row_id (u : User) (d : Int) : (debit_row u d).telegram_id = u.telegram_id := rfl

theorem debit_row_balance (u : User) (d : Int) :
    (debit_row u d).balance_seconds = some (u.balance_seconds.getD 0 - d) := rfl

theorem debit_row_trial (u : User) (d : Int) : (debit_row u d).trial_left = u.trial_left := rfl

theorem trial_row_id (u : User) : (trial_row u).telegram_id = u.telegram_id := rfl

theorem trial_row_trial (u : User) :
    (trial_row u).trial_left = some (u.trial_left.getD 0 - 1) := rfl

theorem trial_row_balance (u : User) : (trial_row u).balance_seconds = u.balance_seconds := rfl

theorem paid_row_order (p : Payment) : (paid_row p).order_id = p.order_id := rfl

theorem paid_row_invoice (p : Payment) : (paid_row p).invoice_id = p.invoice_id := rfl

theorem paid_row_status (p : Payment) : (paid_row p).status = "paid" := rfl

theorem find_payment_idx_primary (payments : List Payment) (o iu : String)
    (i : Nat) (p : Payment)
    (h : findIdxElem? (fun q => q.order_id == o) payments = some (i, p)) :
    find_payment_idx payments o iu = some (i, p) := by
  unfold find_payment_idx
  rw [h]

theorem find_payment_idx_fallback (payments : List Payment) (o iu : String)
    (i : Nat) (p : Payment)
    (hnone : findIdxElem? (fun q => q.order_id == o) payments = none)
    (hiu : iu ≠ "")
    (h : findIdxElem? (fun q => q.invoice_id == iu) payments = some (i, p)) :
    find_payment_idx payments o iu = some (i, p) := by
  unfold find_payment_idx
  rw [hnone]
  simp only [if_pos hiu, h]

/-- C2 (amended): whenever the account's balance is positive the request
is served from the balance — debited by `max 1 duration` when covered —
and the trial counter is untouched; the trial allowance is consumed only
when the balance is zero (and then only under the per-message cap). -/
theorem balance_first_metering (db : DB) (tid dur : Int) (u : User) (b t : Int)
    (hf : db.users.find? (fun v => v.telegram_id == tid) = some u)
    (hb : u.balance_seconds = some b) (ht : u.trial_left = some t) :
    (0 < b → max 1 dur ≤ b →
      (handle_voice db tid dur).2 = VoiceOutcome.okBalance ∧
      dbUserBalance (handle_voice db tid dur).1 tid = b - max 1 dur ∧
      dbUserTrial (handle_voice db tid dur).1 tid = t) ∧
    (b = 0 → 0 < t → dur ≤ TRIAL_MAX_SECONDS_PER_MESSAGE →
      (handle_voice db tid dur).2 = VoiceOutcome.okTrial ∧
      dbUserTrial (handle_voice db tid dur).1 tid = t - 1 ∧
      dbUserBalance (handle_voice db tid dur).1 tid = b) := by
  have hu : u.telegram_id = tid := by simpa using List.find?_some hf
  have hrid : (repair_user u).telegram_id = tid := by rw [repair_telegram_id, hu]
  have hrb : (repair_user u).balance_seconds = some b := repair_balance_some u b hb
  have hrt : (repair_user u).trial_left = some t := repair_trial_some u t ht
  constructor
  · intro hpos hcov
    have hpos' : (repair_user u).balance_seconds.getD 0 > 0 := by
      rw [hrb]
      exact hpos
    have hcov' : ¬ ((repair_user u).balance_seconds.getD 0 < max 1 dur) := by
      rw [hrb]
      exact not_lt.mpr hcov
    rw [handle_voice_balance_eq db tid dur u hf hpos' hcov']
    have h1 := find?_update_self_user db.users tid u (repair_user u) hf hrid
    have h2 := find?_update_self_user _ tid (repair_user u)
      (debit_row (repair_user u) (max 1 dur)) h1 (by rw [debit_row_id, hrid])
    refine ⟨rfl, ?_, ?_⟩
    · simp only [dbUserBalance, h2]
      show (debit_row (repair_user u) (max 1 dur)).balance_seconds.getD 0 = b - max 1 dur
      rw [debit_row_balance, hrb]
      rfl
    · simp only [dbUserTrial, h2]
      show (debit_row (repair_user u) (max 1 dur)).trial_left.getD 0 = t
      rw [debit_row_trial, hrt]
      rfl
  · intro hb0 hpt hncap
    have hnpos : ¬ ((repair_user u).balance_seconds.getD 0 > 0) := by
      rw [hrb, hb0]
      exact lt_irrefl 0
    have hnto : ¬ ((repair_user u).trial_left.getD 0 ≤ 0) := by
      rw [hrt]
      exact not_le.mpr hpt
    have hncap' : ¬ (dur > TRIAL_MAX_SECONDS_PER_MESSAGE) := not_lt.mpr hncap
    rw [handle_voice_trial_eq db tid dur u hf hnpos hnto hncap']
    have h1 := find?_update_self_user db.users tid u (repair_user u) hf hrid
    have h2 := find?_update_self_user _ tid (repair_user u)
      (trial_row (repair_user u)) h1 (by rw [trial_row_id, hrid])
    refine ⟨rfl, ?_, ?_⟩
    · simp only [dbUserTrial, h2]
      show (trial_row (repair_user u)).trial_left.getD 0 = t - 1
      rw [trial_row_trial, hrt]
      rfl
    · simp only [dbUserBalance, h2]
      show (trial_row (repair_user u)).balance_seconds.getD 0 = b
      rw [trial_row_balance, hrb]
      rfl

/-- C2 (counterexample): an account with `trial_left = 1` and
`balance_seconds = 120` consuming a 30-second request is served from the
balance (120 to 90, trial unchanged), not from the trial allowance as the
claim states. -/
theorem trial_first_counterexample :
    dbUserTrial c2_db 1 = 1 ∧ dbUserBalance c2_db 1 = 120 ∧
    (handle_voice c2_db 1 30).2 = VoiceOutcome.okBalance ∧
    dbUserBalance (handle_voice c2_db 1 30).1 1 = 90 ∧
    dbUserTrial (handle_voice c2_db 1 30).1 1 = 1 := by
  decide

/-- C2 (witness): the amended theorem applied to the concrete
trial-1/balance-120 account with a 30-second request. -/
theorem balance_first_metering_witness :
    (0 : Int) < 120 ∧ max 1 (30 : Int) ≤ 120 ∧
    (handle_voice c2_db 1 30).2 = VoiceOutcome.okBalance ∧
    dbUserBalance (handle_voice c2_db 1 30).1 1 = 120 - max 1 30 ∧
    dbUserTrial (handle_voice c2_db 1 30).1 1 = 1 := by
  have h := (balance_first_metering c2_db 1 30 c2_user 120 1 (by decide) rfl rfl).1
    (by decide) (by decide)
  exact ⟨by decide, by decide, h.1, h.2.1, h.2.2⟩

/-- C3: the status write and the credit are two separate commits; when
the credit step fails after the status write (here: a stale package code),
the invoice ends in the terminal `paid` status with the balance not
credited, and redelivering the notification cannot repair it because the
paid guard now skips it. -/
theorem paid_status_without_credit_reachable :
    ((cryptocloud_postback none c3_note c3_db).1).payments.map (fun p => p.status) = ["paid"] ∧
    dbUserBalance (cryptocloud_postback none c3_note c3_db).1 9 = 0 ∧
    dbUserBalance c3_db 9 = 0 ∧
    (cryptocloud_postback none c3_note (cryptocloud_postback none c3_note c3_db).1).1
      = (cryptocloud_postback none c3_note c3_db).1 := by
  decide

/-- C6 (counterexample): a paid notification carrying the processor
invoice id but no order id returns at the missing-order-id guard before
any lookup: state unchanged, no credit — the fallback never runs. -/
theorem missing_order_id_skips_fallback :
    (cryptocloud_postback none c6_note c6_db).1 = c6_db ∧
    dbUserBalance c6_db 5 = 0 ∧
    c6_note.order_id = none ∧ c6_note.invoice_uuid = some c6_pay.invoice_id := by
  decide

/-- C6 (amended): the fallback lookup by processor invoice id takes
effect only when the notification carries a non-empty order id that
matches no Payment row; in that case reconciliation resolves the invoice
by its processor id, marks it paid, and credits exactly the owning
account. -/
theorem fallback_lookup_credits_account (vr : Option (Except String Unit))
    (d : PostbackData) (db : DB) (i : Nat) (p : Payment) (usd mins : Int)
    (ho : ¬ (pyStrip (d.order_id.getD "") = ""))
    (hnone : findIdxElem? (fun q => q.order_id == pyStrip (d.order_id.getD "")) db.payments = none)
    (hiu : pyStrip (d.invoice_uuid.getD "") ≠ "")
    (hfind : findIdxElem? (fun q => q.invoice_id == pyStrip (d.invoice_uuid.getD "")) db.payments
      = some (i, p))
    (hp : (p.status == "paid") = false)
    (hpf : paid_flag d = true)
    (hpkg : packages_get p.package_code = some (usd, mins)) :
    dbUserBalance (cryptocloud_postback vr d db).1 p.telegram_id
      = dbUserBalance db p.telegram_id + mins * 60 ∧
    ((cryptocloud_postback vr d db).1).payments = db.payments.set i (paid_row p) ∧
    (∀ t : Int, t ≠ p.telegram_id →
      dbUserBalance (cryptocloud_postback vr d db).1 t = dbUserBalance db t) := by
  have hfp := find_payment_idx_fallback db.payments _ _ i p hnone hiu hfind
  rw [postback_paid_known_eq vr d db i p usd mins ho hfp hp hpf hpkg]
  refine ⟨?_, ?_, ?_⟩
  · rw [apply_credit_balance]
    rfl
  · rw [apply_credit_payments]
  · intro t htne
    rw [apply_credit_balance_other _ _ _ _ htne]
    rfl

/-- C4: delivering the same paid notification N times (N at least 1)
credits the owning account exactly once — one `minutes * 60` increment,
the invoice advanced to `paid` — and every delivery after the first is a
no-op on the whole store. -/
theorem paid_notification_idempotent (vr : Option (Except String Unit))
    (d : PostbackData) (db : DB) (i : Nat) (p : Payment) (usd mins : Int)
    (ho : ¬ (pyStrip (d.order_id.getD "") = ""))
    (hfind : findIdxElem? (fun q => q.order_id == pyStrip (d.order_id.getD "")) db.payments
      = some (i, p))
    (hp : (p.status == "paid") = false)
    (hpf : paid_flag d = true)
    (hpkg : packages_get p.package_code = some (usd, mins)) :
    dbUserBalance (cryptocloud_postback vr d db).1 p.telegram_id
      = dbUserBalance db p.telegram_id + mins * 60 ∧
    ((cryptocloud_postback vr d db).1).payments = db.payments.set i (paid_row p) ∧
    (∀ n : Nat, 1 ≤ n →
      (fun s : DB => (cryptocloud_postback vr d s).1)^[n] db
        = (cryptocloud_postback vr d db).1) := by
  have hfp := find_payment_idx_primary db.payments _ (pyStrip (d.invoice_uuid.getD "")) i p hfind
  have hstep : (cryptocloud_postback vr d db).1
      = apply_credit (DB.mk db.users (db.payments.set i (paid_row p))) p.telegram_id (mins * 60) := by
    rw [postback_paid_known_eq vr d db i p usd mins ho hfp hp hpf hpkg]
  refine ⟨?_, ?_, ?_⟩
  · rw [hstep, apply_credit_balance]
    rfl
  · rw [hstep, apply_credit_payments]
  · have hs1pay : ((cryptocloud_postback vr d db).1).payments = db.payments.set i (paid_row p) := by
      rw [hstep, apply_credit_payments]
    have hpred : ((paid_row p).order_id == pyStrip (d.order_id.getD "")) = true := by
      rw [paid_row_order]
      exact findIdxElem?_pred (fun q => q.order_id == pyStrip (d.order_id.getD "")) db.payments i p hfind
    have hfind2 : findIdxElem? (fun q => q.order_id == pyStrip (d.order_id.getD ""))
        ((cryptocloud_postback vr d db).1).payments = some (i, paid_row p) := by
      rw [hs1pay]
      exact findIdxElem?_set_self _ _ _ _ _ hfind hpred
    have hfp2 := find_payment_idx_primary ((cryptocloud_postback vr d db).1).payments _
      (pyStrip (d.invoice_uuid.getD "")) i (paid_row p) hfind2
    have hfix : (cryptocloud_postback vr d ((cryptocloud_postback vr d db).1)).1
        = (cryptocloud_postback vr d db).1 := by
      rw [postback_already_paid_eq vr d _ i (paid_row p) ho hfp2 (by rw [paid_row_status]; rfl)]
    intro n hn
    obtain ⟨m, rfl⟩ : ∃ m, n = m + 1 := ⟨n - 1, (Nat.succ_pred_eq_of_pos hn).symm⟩
    rw [Function.iterate_succ_apply]
    show (fun s : DB => (cryptocloud_postback vr d s).1)^[m] ((cryptocloud_postback vr d db).1)
      = (cryptocloud_postback vr d db).1
    exact Function.iterate_fixed hfix m

/-- C4 (witness): two deliveries of the same paid notification on a
concrete store equal one delivery, which credits 30 minutes once. -/
theorem paid_notification_idempotent_witness :
    dbUserBalance (cryptocloud_postback none c4_note c4_db).1 3
      = dbUserBalance c4_db 3 + 30 * 60 ∧
    (fun s : DB => (cryptocloud_postback none c4_note s).1)^[2] c4_db
      = (cryptocloud_postback none c4_note c4_db).1 := by
  have h := paid_notification_idempotent none c4_note c4_db 0 c4_pay 3 30
    (by decide) (by decide) (by decide) (by decide) (by decide)
  exact ⟨h.1, h.2.2 2 (by decide)⟩

/-- C8: when the processor invoice-creation call fails (exception,
non-success status, or a response without both identifier and link), no
Payment row is persisted and the caller gets an error message, never a
URL; conversely a created invoice implies the processor returned both an
identifier and a payable link, and exactly one row was appended. -/
theorem invoice_failure_no_payment_row (db : DB) (chat_id : Int) (pkg : String)
    (now : Int) (env : Bool) (atts : List CcAttempt) :
    (∀ e : String, create_invoice env atts = Except.error e →
      (handle_buy db chat_id pkg now env atts).1 = db ∧
      (∀ pk : Int × Int, packages_get pkg = some pk →
        (handle_buy db chat_id pkg now env atts).2 = BuyOutcome.errorMsg e) ∧
      (∀ o u_ : String,
        (handle_buy db chat_id pkg now env atts).2 ≠ BuyOutcome.invoiceCreated o u_)) ∧
    (∀ o u_ : String,
      (handle_buy db chat_id pkg now env atts).2 = BuyOutcome.invoiceCreated o u_ →
      ∃ uuid : String, ∃ pk : Int × Int, packages_get pkg = some pk ∧
        create_invoice env atts = Except.ok (uuid, u_) ∧
        (handle_buy db chat_id pkg now env atts).1.payments
          = db.payments ++ [Payment.mk chat_id o uuid pkg pk.1 "created"]) := by
  cases hpk : packages_get pkg with
  | none =>
    constructor
    · intro e he
      refine ⟨?_, ?_, ?_⟩
      · simp [handle_buy, hpk]
      · intro pk2 h2
        cases h2
      · intro o u_
        simp [handle_buy, hpk]
    · intro o u_ h
      simp [handle_buy, hpk] at h
  | some pk =>
    cases hci : create_invoice env atts with
    | error e0 =>
      constructor
      · intro e he
        have he0 : e0 = e := by injection he
        subst he0
        refine ⟨?_, ?_, ?_⟩
        · simp [handle_buy, hpk, hci]
        · intro pk2 h2
          simp [handle_buy, hpk, hci]
        · intro o u_
          simp [handle_buy, hpk, hci]
      · intro o u_ h
        simp [handle_buy, hpk, hci] at h
    | ok uv =>
      obtain ⟨uuid, url⟩ := uv
      have hb : handle_buy db chat_id pkg now env atts
          = (DB.mk db.users (db.payments ++
              [Payment.mk chat_id (toString chat_id ++ "_" ++ pkg ++ "_" ++ toString now) uuid pkg pk.1 "created"]),
             BuyOutcome.invoiceCreated (toString chat_id ++ "_" ++ pkg ++ "_" ++ toString now) url) := by
        simp only [handle_buy, hpk, hci]
      constructor
      · intro e he
        cases he
      · intro o u_ h
        rw [hb] at h
        have h' : BuyOutcome.invoiceCreated (toString chat_id ++ "_" ++ pkg ++ "_" ++ toString now) url
            = BuyOutcome.invoiceCreated o u_ := h
        injection h' with h1 h2
        subst h1
        subst h2
        refine ⟨uuid, pk, rfl, rfl, ?_⟩
        rw [hb]

theorem lang_row_id (u : User) (c : String) : (lang_row u c).telegram_id = u.telegram_id := rfl

theorem handle_lang_found_set_eq (db : DB) (tid : Int) (cb : String) (u : User)
    (hf : db.users.find? (fun v => v.telegram_id == tid) = some u)
    (hc : langCodes.contains (pyStrip (pyReplace cb "lang_" "")) = true) :
    handle_lang db tid cb =
      DB.mk (updateFirst (fun v => v.telegram_id == tid)
          (fun _ => lang_row (repair_user u) (pyStrip (pyReplace cb "lang_" "")))
          (updateFirst (fun v => v.telegram_id == tid) (fun _ => repair_user u) db.users))
        db.payments := by
  simp only [handle_lang, get_or_create_user, hf]
  rw [if_pos hc]
  rfl

theorem handle_lang_found_skip_eq (db : DB) (tid : Int) (cb : String) (u : User)
    (hf : db.users.find? (fun v => v.telegram_id == tid) = some u)
    (hc : ¬ (langCodes.contains (pyStrip (pyReplace cb "lang_" "")) = true)) :
    handle_lang db tid cb =
      DB.mk (updateFirst (fun v => v.telegram_id == tid) (fun _ => repair_user u) db.users)
        db.payments := by
  simp only [handle_lang, get_or_create_user, hf]
  rw [if_neg hc]

theorem handle_lang_new_set_eq (db : DB) (tid : Int) (cb : String)
    (hf : db.users.find? (fun v => v.telegram_id == tid) = none)
    (hc : langCodes.contains (pyStrip (pyReplace cb "lang_" "")) = true) :
    handle_lang db tid cb =
      DB.mk (db.users ++ [lang_row (newUser tid) (pyStrip (pyReplace cb "lang_" ""))])
        db.payments := by
  have hnewt : ((newUser tid).telegram_id == tid) = true := by simp [newUser]
  have happ := updateFirst_append_of_none (fun v : User => v.telegram_id == tid)
    (fun _ => lang_row (newUser tid) (pyStrip (pyReplace cb "lang_" ""))) db.users (newUser tid) hf
  have hsingle : updateFirst (fun v : User => v.telegram_id == tid)
      (fun _ => lang_row (newUser tid) (pyStrip (pyReplace cb "lang_" ""))) [newUser tid]
      = [lang_row (newUser tid) (pyStrip (pyReplace cb "lang_" ""))] := by
    simp [updateFirst, hnewt]
  simp only [handle_lang, get_or_create_user, hf]
  rw [if_pos hc]
  show DB.mk (updateFirst (fun v => v.telegram_id == tid)
      (fun _ => lang_row (newUser tid) (pyStrip (pyReplace cb "lang_" "")))
      (db.users ++ [newUser tid])) db.payments = _
  rw [happ, hsingle]

theorem handle_lang_new_skip_eq (db : DB) (tid : Int) (cb : String)
    (hf : db.users.find? (fun v => v.telegram_id == tid) = none)
    (hc : ¬ (langCodes.contains (pyStrip (pyReplace cb "lang_" "")) = true)) :
    handle_lang db tid cb = DB.mk (db.users ++ [newUser tid]) db.payments := by
  simp only [handle_lang, get_or_create_user, hf]
  rw [if_neg hc]

theorem handle_lang_skip (db : DB) (tid : Int) (cb : String)
    (hc : ¬ (langCodes.contains (pyStrip (pyReplace cb "lang_" "")) = true)) :
    handle_lang db tid cb = (get_or_create_user db tid).2 := by
  simp only [handle_lang]
  rw [if_neg hc]

theorem handle_buy_users (db : DB) (chat_id : Int) (pkg : String) (now : Int)
    (env : Bool) (atts : List CcAttempt) :
    (handle_buy db chat_id pkg now env atts).1.users = db.users := by
  cases hpk : packages_get pkg with
  | none => simp [handle_buy, hpk]
  | some pk =>
    cases hci : create_invoice env atts with
    | error e => simp [handle_buy, hpk, hci]
    | ok uv => simp [handle_buy, hpk, hci]

theorem credit_ok_inv (db : DB) (tid : Int) (pkg : String) (r : Int × DB)
    (h : credit_user_minutes db tid pkg = Except.ok r) :
    ∃ pr : Int × Int, packages_get pkg = some pr ∧
      r.1 = pr.2 * 60 ∧ r.2 = apply_credit db tid (pr.2 * 60) := by
  cases hpk : packages_get pkg with
  | none =>
    rw [credit_user_minutes_err db tid pkg hpk] at h
    cases h
  | some pr =>
    rw [credit_user_minutes_eq db tid pkg pr.1 pr.2 (by rw [hpk])] at h
    injection h with h'
    exact ⟨pr, rfl, by rw [← h'], by rw [← h']⟩

theorem forall_mem_updateFirst_const {P : User → Prop} (p : User → Bool) (y : User)
    (l : List User) (hl : ∀ x ∈ l, P x) (hy : P y) :
    ∀ x ∈ updateFirst p (fun _ => y) l, P x := by
  intro x hx
  rcases mem_updateFirst p (fun _ => y) l x hx with h | ⟨z, hz, hxz⟩
  · exact hl x h
  · rw [hxz]
    exact hy

theorem forall_mem_append_single {P : α → Prop} (l : List α) (y : α)
    (hl : ∀ x ∈ l, P x) (hy : P y) : ∀ x ∈ l ++ [y], P x := by
  intro x hx
  rcases List.mem_append.mp hx with h | h
  · exact hl x h
  · rw [List.mem_singleton.mp h]
    exact hy

theorem dbInv_get_or_create {P : User → Prop} (hp : RowInvPres P) (db : DB) (tid : Int)
    (h : DBInv P db) : DBInv P (get_or_create_user db tid).2 := by
  unfold get_or_create_user
  cases hf : db.users.find? (fun v => v.telegram_id == tid) with
  | some u =>
    intro x hx
    exact forall_mem_updateFirst_const _ _ _ h
      (hp.repairP u (h u (List.mem_of_find?_eq_some hf))) x hx
  | none =>
    intro x hx
    exact forall_mem_append_single _ _ h (hp.newP tid) x hx

theorem dbInv_apply_credit {P : User → Prop} (hp : RowInvPres P) (db : DB) (tid : Int)
    (pr : Int × Int) (code : String) (hpk : packages_get code = some pr)
    (h : DBInv P db) : DBInv P (apply_credit db tid (pr.2 * 60)) := by
  cases hf : db.users.find? (fun v => v.telegram_id == tid) with
  | some u =>
    rw [apply_credit_found db tid _ u hf]
    intro x hx
    have hru := hp.repairP u (h u (List.mem_of_find?_eq_some hf))
    have hcu := hp.creditP (repair_user u) pr code hpk hru
    exact forall_mem_updateFirst_const _ _ _
      (forall_mem_updateFirst_const _ _ _ h hru) hcu x hx
  | none =>
    rw [apply_credit_new db tid _ hf]
    intro x hx
    exact forall_mem_append_single _ _ h
      (hp.creditP (newUser tid) pr code hpk (hp.newP tid)) x hx

theorem dbInv_voice {P : User → Prop} (hp : RowInvPres P) (db : DB) (tid dur : Int)
    (h : DBInv P db) : DBInv P (handle_voice db tid dur).1 := by
  cases hf : db.users.find? (fun v => v.telegram_id == tid) with
  | some u =>
    have hru := hp.repairP u (h u (List.mem_of_find?_eq_some hf))
    by_cases hpos : (repair_user u).balance_seconds.getD 0 > 0
    · by_cases hlt : (repair_user u).balance_seconds.getD 0 < max 1 dur
      · rw [handle_voice_insufficient_eq db tid dur u hf hpos hlt]
        intro x hx
        exact forall_mem_updateFirst_const _ _ _ h hru x hx
      · rw [handle_voice_balance_eq db tid dur u hf hpos hlt]
        intro x hx
        have hd := hp.debitP (repair_user u) (max 1 dur) hru (not_lt.mp hlt)
        exact forall_mem_updateFirst_const _ _ _
          (forall_mem_updateFirst_const _ _ _ h hru) hd x hx
    · by_cases hto : (repair_user u).trial_left.getD 0 ≤ 0
      · rw [handle_voice_trial_over_eq db tid dur u hf hpos hto]
        intro x hx
        exact forall_mem_updateFirst_const _ _ _ h hru x hx
      · by_cases hcap : dur > TRIAL_MAX_SECONDS_PER_MESSAGE
        · rw [handle_voice_cap_eq db tid dur u hf hpos hto hcap]
          intro x hx
          exact forall_mem_updateFirst_const _ _ _ h hru x hx
        · rw [handle_voice_trial_eq db tid dur u hf hpos hto hcap]
          intro x hx
          have ht := hp.trialP (repair_user u) hru (not_le.mp hto)
          exact forall_mem_updateFirst_const _ _ _
            (forall_mem_updateFirst_const _ _ _ h hru) ht x hx
  | none =>
    by_cases hcap : dur > TRIAL_MAX_SECONDS_PER_MESSAGE
    · rw [handle_voice_new_cap_eq db tid dur hf hcap]
      intro x hx
      exact forall_mem_append_single _ _ h (hp.newP tid) x hx
    · rw [handle_voice_new_trial_eq db tid dur hf hcap]
      intro x hx
      have ht := hp.trialP (newUser tid) (hp.newP tid)
        (by norm_num [newUser, TRIAL_LIMIT])
      exact forall_mem_append_single _ _ h ht x hx

theorem dbInv_lang {P : User → Prop} (hp : RowInvPres P) (db : DB) (tid : Int) (cb : String)
    (h : DBInv P db) : DBInv P (handle_lang db tid cb) := by
  by_cases hc : langCodes.contains (pyStrip (pyReplace cb "lang_" "")) = true
  · cases hf : db.users.find? (fun v => v.telegram_id == tid) with
    | some u =>
      rw [handle_lang_found_set_eq db tid cb u hf hc]
      intro x hx
      have hru := hp.repairP u (h u (List.mem_of_find?_eq_some hf))
      have hl := hp.langP (repair_user u) _ hc hru
      exact forall_mem_updateFirst_const _ _ _
        (forall_mem_updateFirst_const _ _ _ h hru) hl x hx
    | none =>
      rw [handle_lang_new_set_eq db tid cb hf hc]
      intro x hx
      exact forall_mem_append_single _ _ h (hp.langP (newUser tid) _ hc (hp.newP tid)) x hx
  · rw [handle_lang_skip db tid cb hc]
    exact dbInv_get_or_create hp db tid h

theorem dbInv_postback {P : User → Prop} (hp : RowInvPres P)
    (vr : Option (Except String Unit)) (d : PostbackData) (db : DB)
    (h : DBInv P db) : DBInv P (cryptocloud_postback vr d db).1 := by
  simp only [cryptocloud_postback]
  split
  · exact h
  · split
    · exact h
    · split
      · exact h
      · split
        · exact h
        · split
          next r heq =>
            obtain ⟨pr, hpk, _, hdb⟩ := credit_ok_inv _ _ _ r heq
            rw [hdb]
            exact dbInv_apply_credit hp _ _ pr _ hpk h
          next e heq => exact h

theorem dbInv_applyOp {P : User → Prop} (hp : RowInvPres P) (db : DB) (op : Op)
    (h : DBInv P db) : DBInv P (applyOp db op) := by
  cases op with
  | start c => exact dbInv_get_or_create hp db c h
  | voice c dur => exact dbInv_voice hp db c dur h
  | langCb c s => exact dbInv_lang hp db c s h
  | buy c pk now env atts =>
    intro x hx
    simp only [applyOp] at hx
    rw [handle_buy_users db c pk now env atts] at hx
    exact h x hx
  | creditOp t pk =>
    simp only [applyOp]
    cases hc : credit_user_minutes db t pk with
    | error e => exact h
    | ok r =>
      obtain ⟨pr, hpk, _, hdb⟩ := credit_ok_inv db t pk r hc
      show DBInv P r.2
      rw [hdb]
      exact dbInv_apply_credit hp db t pr pk hpk h
  | postbackOp vr d => exact dbInv_postback hp vr d db h

theorem dbInv_applyOps {P : User → Prop} (hp : RowInvPres P) (db : DB) (ops : List Op)
    (h : DBInv P db) : DBInv P (applyOps db ops) := by
  induction ops generalizing db with
  | nil => exact h
  | cons op rest ih => exact ih (applyOp db op) (dbInv_applyOp hp db op h)

theorem credited_row_trial (u : User) (a : Int) : (credited_row u a).trial_left = u.trial_left := rfl

theorem credited_row_target (u : User) (a : Int) :
    (credited_row u a).target_lang = u.target_lang := rfl

theorem debit_row_target (u : User) (d : Int) : (debit_row u d).target_lang = u.target_lang := rfl

theorem trial_row_target (u : User) : (trial_row u).target_lang = u.target_lang := rfl

theorem lang_row_balance (u : User) (c : String) :
    (lang_row u c).balance_seconds = u.balance_seconds := rfl

theorem lang_row_trial (u : User) (c : String) : (lang_row u c).trial_left = u.trial_left := rfl

theorem packages_get_minutes_nonneg (code : String) (pr : Int × Int)
    (h : packages_get code = some pr) : 0 ≤ pr.2 := by
  unfold packages_get at h
  obtain ⟨e, he, hev⟩ := Option.map_eq_some'.mp h
  have hm : e ∈ PACKAGES := List.mem_of_find?_eq_some he
  rw [← hev]
  simp only [PACKAGES, List.mem_cons, List.not_mem_nil, or_false] at hm
  rcases hm with h1 | h1 | h1 | h1
  all_goals rw [h1]
  all_goals norm_num

theorem nonnegRow_repair (u : User) (h : NonnegRow u) : NonnegRow (repair_user u) := by
  obtain ⟨hb, ht⟩ := h
  constructor
  · rw [repair_balance_getD]
    exact hb
  · cases htl : u.trial_left with
    | none =>
      rw [repair_user_eq]
      show 0 ≤ (some (u.trial_left.getD TRIAL_LIMIT)).getD 0
      rw [htl]
      norm_num [TRIAL_LIMIT]
    | some t =>
      rw [repair_trial_some u t htl]
      rw [htl] at ht
      exact ht

theorem rowInvPres_nonneg : RowInvPres NonnegRow := by
  constructor
  · exact nonnegRow_repair
  · intro t
    constructor <;> norm_num [newUser, TRIAL_LIMIT]
  · intro u d h hcov
    obtain ⟨hb, ht⟩ := h
    constructor
    · show 0 ≤ (debit_row u d).balance_seconds.getD 0
      rw [debit_row_balance]
      show 0 ≤ u.balance_seconds.getD 0 - d
      omega
    · show 0 ≤ (debit_row u d).trial_left.getD 0
      rw [debit_row_trial]
      exact ht
  · intro u h hpos
    obtain ⟨hb, ht⟩ := h
    constructor
    · show 0 ≤ (trial_row u).balance_seconds.getD 0
      rw [trial_row_balance]
      exact hb
    · show 0 ≤ (trial_row u).trial_left.getD 0
      rw [trial_row_trial]
      show 0 ≤ u.trial_left.getD 0 - 1
      omega
  · intro u pr code hpk h
    obtain ⟨hb, ht⟩ := h
    have hm := packages_get_minutes_nonneg code pr hpk
    constructor
    · show 0 ≤ (credited_row u (pr.2 * 60)).balance_seconds.getD 0
      rw [credited_row_balance]
      have h60 : 0 ≤ pr.2 * 60 := by positivity
      omega
    · show 0 ≤ (credited_row u (pr.2 * 60)).trial_left.getD 0
      rw [credited_row_trial]
      exact ht
  · intro u c hc h
    obtain ⟨hb, ht⟩ := h
    constructor
    · show 0 ≤ (lang_row u c).balance_seconds.getD 0
      rw [lang_row_balance]
      exact hb
    · show 0 ≤ (lang_row u c).trial_left.getD 0
      rw [lang_row_trial]
      exact ht

/-- C5: over every sequence of webhook operations (voice consumption,
credits, purchases, language callbacks, postbacks), every account keeps
`balance_seconds` and `trial_left` non-negative: the balance is debited
only when it covers `max 1 duration` and the trial counter is decremented
only when strictly positive. -/
theorem balances_nonneg_invariant (db : DB) (ops : List Op)
    (h : ∀ u ∈ db.users, 0 ≤ u.balance_seconds.getD 0 ∧ 0 ≤ u.trial_left.getD 0) :
    ∀ u ∈ (applyOps db ops).users, 0 ≤ u.balance_seconds.getD 0 ∧ 0 ≤ u.trial_left.getD 0 :=
  dbInv_applyOps rowInvPres_nonneg db ops h

/-- the invariant on every row bounds the balance and trial read for any
single account. -/
theorem nonneg_dbUser_of_inv (db : DB) (t : Int)
    (h : ∀ u ∈ db.users, 0 ≤ u.balance_seconds.getD 0 ∧ 0 ≤ u.trial_left.getD 0) :
    0 ≤ dbUserBalance db t ∧ 0 ≤ dbUserTrial db t := by
  unfold dbUserBalance dbUserTrial
  cases hf : db.users.find? (fun v => v.telegram_id == t) with
  | none => exact ⟨le_refl 0, le_refl 0⟩
  | some u =>
    have hu := h u (List.mem_of_find?_eq_some hf)
    constructor
    · show 0 ≤ u.balance_seconds.getD 0
      exact hu.1
    · show 0 ≤ u.trial_left.getD 0
      exact hu.2

/-- C5 (witness): the invariant evaluated over a concrete run from the
empty store. -/
theorem balances_nonneg_invariant_witness :
    0 ≤ dbUserBalance (applyOps (DB.mk [] []) c5_ops) 1 ∧
    0 ≤ dbUserTrial (applyOps (DB.mk [] []) c5_ops) 1 :=
  nonneg_dbUser_of_inv _ 1
    (balances_nonneg_invariant (DB.mk [] []) c5_ops (by intro u hu; cases hu))

theorem rowInvPres_lang : RowInvPres (fun u => langRowOk u = true) := by
  constructor
  · intro u h
    cases hl : u.target_lang with
    | none =>
      unfold langRowOk at h
      rw [hl] at h
      cases h
    | some l =>
      have hrl : (repair_user u).target_lang = some l := by
        rw [repair_user_eq, hl]
        rfl
      unfold langRowOk at h ⊢
      rw [hrl]
      rw [hl] at h
      exact h
  · intro t
    show langRowOk (newUser t) = true
    simp only [langRowOk, newUser]
    decide
  · intro u d h _
    show langRowOk (debit_row u d) = true
    unfold langRowOk at h ⊢
    rw [debit_row_target]
    exact h
  · intro u h _
    show langRowOk (trial_row u) = true
    unfold langRowOk at h ⊢
    rw [trial_row_target]
    exact h
  · intro u pr code _ h
    show langRowOk (credited_row u (pr.2 * 60)) = true
    unfold langRowOk at h ⊢
    rw [credited_row_target]
    exact h
  · intro u c hc _
    show langRowOk (lang_row u c) = true
    unfold langRowOk
    show langCodes.contains c = true
    exact hc

/-- C10: every account's `target_lang` stays inside the supported
language set over every operation sequence; it is initialized to the
member `fr` on creation and on NULL-repair, and a language callback whose
code is outside the set writes nothing beyond the usual row repair. -/
theorem target_lang_always_supported (db : DB) (ops : List Op)
    (h : ∀ u ∈ db.users, langRowOk u = true) :
    (∀ u ∈ (applyOps db ops).users, langRowOk u = true) ∧
    (∀ u : User, u.target_lang = none → (repair_user u).target_lang = some "fr") ∧
    (∀ tid : Int, ∀ cb : String,
      ¬ (langCodes.contains (pyStrip (pyReplace cb "lang_" "")) = true) →
      handle_lang db tid cb = (get_or_create_user db tid).2) := by
  refine ⟨dbInv_applyOps rowInvPres_lang db ops h, ?_, ?_⟩
  · intro u hu
    rw [repair_user_eq, hu]
    rfl
  · intro tid cb hc
    exact handle_lang_skip db tid cb hc

/-- the row invariant bounds the language read for any single account. -/
theorem dbUserLangOk_of_inv (db : DB) (t : Int)
    (h : ∀ u ∈ db.users, langRowOk u = true) : dbUserLangOk db t = true := by
  unfold dbUserLangOk
  cases hf : db.users.find? (fun v => v.telegram_id == t) with
  | none => rfl
  | some u =>
    have hu := h u (List.mem_of_find?_eq_some hf)
    show langRowOk u = true
    exact hu

/-- C10 (witness): the invariant evaluated over a concrete run that
includes a rejected and an accepted language callback. -/
theorem target_lang_always_supported_witness :
    dbUserLangOk (applyOps (DB.mk [] []) c10_ops) 4 = true :=
  dbUserLangOk_of_inv _ 4
    ((target_lang_always_supported (DB.mk [] []) c10_ops (by intro u hu; cases hu)).1)

/-- C6 (witness for the amended theorem): with a non-empty order id that
matches no invoice, the fallback lookup by processor invoice id credits
the owning account of `c6_pay` and marks it paid. -/
theorem fallback_lookup_credits_account_witness :
    dbUserBalance (cryptocloud_postback none c6b_note c6_db).1 5
      = dbUserBalance c6_db 5 + 60 * 60 ∧
    ((cryptocloud_postback none c6b_note c6_db).1).payments
      = c6_db.payments.set 0 (paid_row c6_pay) := by
  have h := fallback_lookup_credits_account none c6b_note c6_db 0 c6_pay 8 60
    (by decide) (by decide) (by decide) (by decide) (by decide) (by decide) (by decide)
  exact ⟨h.1, h.2.1⟩

/-- C8 (witness): a creation attempt that raises leaves the store
unchanged and the caller gets the error text, not a URL. -/
theorem invoice_failure_no_payment_row_witness :
    create_invoice false c8_atts
      = Except.error "CryptoCloud create invoice failed: exception: timeout" ∧
    (handle_buy (DB.mk [] []) 2 "P60" 11 false c8_atts).1 = DB.mk [] [] ∧
    (handle_buy (DB.mk [] []) 2 "P60" 11 false c8_atts).2
      = BuyOutcome.errorMsg "CryptoCloud create invoice failed: exception: timeout" := by
  have h := (invoice_failure_no_payment_row (DB.mk [] []) 2 "P60" 11 false c8_atts).1
    "CryptoCloud create invoice failed: exception: timeout" (by rfl)
  exact ⟨by rfl, h.1, h.2.1 (8, 60) (by decide)⟩

/-- C9: the claim fails on the code. The bodies shown — a JSON array, an
object whose status field is the number 5, and an object whose
invoice_info field is a string — are syntactically parseable, yet the
extraction prologue raises an uncaught AttributeError, so the endpoint
answers HTTP 500 (with no state change) and the processor is made to
retry; only unparsable bodies and type-correct objects get the 200
acknowledgment. -/
theorem parseable_json_can_get_500 :
    ((cryptocloud_postback_endpoint none (some (Json.arr [Json.num 1])) c9_db).2.status_code = 500 ∧
      (cryptocloud_postback_endpoint none (some (Json.arr [Json.num 1])) c9_db).1 = c9_db) ∧
    ((cryptocloud_postback_endpoint none (some (Json.obj [("status", Json.num 5)])) c9_db).2.status_code = 500 ∧
      (cryptocloud_postback_endpoint none (some (Json.obj [("status", Json.num 5)])) c9_db).1 = c9_db) ∧
    ((cryptocloud_postback_endpoint none (some (Json.obj [("invoice_info", Json.str "x")])) c9_db).2.status_code = 500 ∧
      (cryptocloud_postback_endpoint none (some (Json.obj [("invoice_info", Json.str "x")])) c9_db).1 = c9_db) ∧
    (cryptocloud_postback_endpoint none none c9_db).2.status_code = 200 ∧
    (cryptocloud_postback_endpoint none
      (some (Json.obj [("status", Json.str "success"), ("order_id", Json.str "11_P30_8")]))
      c9_db).2.status_code = 200 := by
  decide
